import Mathlib

/-!
Verification of the Screenshot-Library catalog core against its
natural-language specification.  The Python sources under `src/` are
shallowly embedded below: pure functions become Lean functions, the
ChromaDB collection becomes an association list from document ids to a
metadata record of comma-joined string fields, the filesystem becomes a
list of paths, and the external vision-model call becomes an explicit
parameter (`none` models an exception raised by the call, `some raw`
models a successful call returning the text `raw`).
-/

/-- JSON values as produced by Python's `json.loads`.  Numbers are
modelled as integers: the inputs handled in this development contain no
fractional or exponent literals, and the parser model below rejects them,
mirroring a restriction of `json.loads` to the integer fragment. -/
inductive JVal where
  | jnull : JVal
  | jbool : Bool → JVal
  | jnum : Int → JVal
  | jstr : String → JVal
  | jarr : List JVal → JVal
  | jobj : List (String × JVal) → JVal

open JVal

/-- Drop leading JSON whitespace, as `json.loads` does between tokens. -/
def skipWs : List Char → List Char
  | [] => []
  | c :: rest =>
    if c = ' ' ∨ c = '\t' ∨ c = '\n' ∨ c = '\r' then skipWs rest else c :: rest

/-- Parse the body of a JSON string after the opening quote, handling the
escape sequences accepted by `json.loads`.  Returns the decoded content
and the remaining input after the closing quote. -/
def parseStringBody : List Char → Option (List Char × List Char)
  | [] => none
  | '"' :: rest => some ([], rest)
  | '\\' :: rest =>
    match rest with
    | [] => none
    | e :: rest2 =>
      if e = '"' then (parseStringBody rest2).map (fun p => ('"' :: p.1, p.2))
      else if e = '\\' then (parseStringBody rest2).map (fun p => ('\\' :: p.1, p.2))
      else if e = '/' then (parseStringBody rest2).map (fun p => ('/' :: p.1, p.2))
      else if e = 'n' then (parseStringBody rest2).map (fun p => ('\n' :: p.1, p.2))
      else if e = 't' then (parseStringBody rest2).map (fun p => ('\t' :: p.1, p.2))
      else if e = 'r' then (parseStringBody rest2).map (fun p => ('\r' :: p.1, p.2))
      else if e = 'b' then (parseStringBody rest2).map (fun p => ('\x08' :: p.1, p.2))
      else if e = 'f' then (parseStringBody rest2).map (fun p => ('\x0c' :: p.1, p.2))
      else none
  | c :: rest => (parseStringBody rest).map (fun p => (c :: p.1, p.2))

/-- Numeric value of a list of decimal digit characters. -/
def digitsToNat (ds : List Char) : Nat :=
  ds.foldl (fun acc c => acc * 10 + (c.toNat - 48)) 0

/-- Parse a JSON integer literal (digits after an optional sign handled
by the caller); leading zeros are rejected as in `json.loads`. -/
def parseDigits (cs : List Char) : Option (Nat × List Char) :=
  let ds := cs.takeWhile Char.isDigit
  if ds.isEmpty then none
  else if ds.length > 1 ∧ ds.headD '0' = '0' then none
  else some (digitsToNat ds, cs.drop ds.length)

/-- Replace the value of key `k` in an object under construction, or
append the binding; this mirrors Python dict insertion (a repeated key
overwrites in place). -/
def insertKey (acc : List (String × JVal)) (k : String) (v : JVal) :
    List (String × JVal) :=
  if acc.any (fun kv => kv.1 == k) then
    acc.map (fun kv => if kv.1 == k then (k, v) else kv)
  else acc ++ [(k, v)]

mutual

/-- Model of `json.loads` value parsing (objects, arrays, strings,
integers, booleans, null), fuel-indexed for termination. -/
def parseValue : Nat → List Char → Option (JVal × List Char)
  | 0, _ => none
  | Nat.succ fuel, cs =>
    match skipWs cs with
    | [] => none
    | '{' :: rest =>
      match skipWs rest with
      | '}' :: r => some (jobj [], r)
      | _ => parseMembers fuel [] rest
    | '[' :: rest =>
      match skipWs rest with
      | ']' :: r => some (jarr [], r)
      | _ => parseElems fuel [] rest
    | '"' :: rest =>
      (parseStringBody rest).map (fun p => (jstr (String.mk p.1), p.2))
    | '-' :: rest =>
      (parseDigits rest).map (fun p => (jnum (-(p.1 : Int)), p.2))
    | 't' :: rest =>
      if ['r', 'u', 'e'].isPrefixOf rest then some (jbool true, rest.drop 3)
      else none
    | 'f' :: rest =>
      if ['a', 'l', 's', 'e'].isPrefixOf rest then some (jbool false, rest.drop 4)
      else none
    | 'n' :: rest =>
      if ['u', 'l', 'l'].isPrefixOf rest then some (jnull, rest.drop 3)
      else none
    | c :: rest =>
      if c.isDigit then
        (parseDigits (c :: rest)).map (fun p => (jnum (p.1 : Int), p.2))
      else none

/-- Members of a JSON object after the opening brace. -/
def parseMembers : Nat → List (String × JVal) → List Char →
    Option (JVal × List Char)
  | 0, _, _ => none
  | Nat.succ fuel, acc, cs =>
    match skipWs cs with
    | '"' :: rest =>
      match parseStringBody rest with
      | none => none
      | some (key, r1) =>
        match skipWs r1 with
        | ':' :: r2 =>
          match parseValue fuel r2 with
          | none => none
          | some (v, r3) =>
            let acc2 := insertKey acc (String.mk key) v
            match skipWs r3 with
            | ',' :: r4 => parseMembers fuel acc2 r4
            | '}' :: r4 => some (jobj acc2, r4)
            | _ => none
        | _ => none
    | _ => none

/-- Elements of a JSON array after the opening bracket. -/
def parseElems : Nat → List JVal → List Char → Option (JVal × List Char)
  | 0, _, _ => none
  | Nat.succ fuel, acc, cs =>
    match parseValue fuel cs with
    | none => none
    | some (v, r) =>
      match skipWs r with
      | ',' :: r2 => parseElems fuel (acc ++ [v]) r2
      | ']' :: r2 => some (jarr (acc ++ [v]), r2)
      | _ => none

end

/-- Model of `json.loads`: parse one value and require that only
whitespace remains. -/
def jsonParse (s : String) : Option JVal :=
  match parseValue (2 * s.length + 2) s.data with
  | some (v, rest) => if skipWs rest = [] then some v else none
  | none => none

/-- The inner scan of `_extract_first_json_object` (src/utils_tagging.py,
lines 44-68): starting at a brace, track nesting depth while treating
characters inside quoted strings (including escape sequences) as
non-structural; return the offset of the closing brace at which the
depth returns to zero, or `none` if the scan exhausts the input. -/
def findBalancedEnd : List Char → Int → Bool → Bool → Option Nat
  | [], _, _, _ => none
  | c :: rest, depth, inStr, esc =>
    if inStr then
      if esc then (findBalancedEnd rest depth true false).map Nat.succ
      else if c = '\\' then (findBalancedEnd rest depth true true).map Nat.succ
      else if c = '"' then (findBalancedEnd rest depth false false).map Nat.succ
      else (findBalancedEnd rest depth true false).map Nat.succ
    else
      if c = '"' then (findBalancedEnd rest depth true false).map Nat.succ
      else if c = '{' then (findBalancedEnd rest (depth + 1) false false).map Nat.succ
      else if c = '}' then
        if depth - 1 = 0 then some 0
        else (findBalancedEnd rest (depth - 1) false false).map Nat.succ
      else (findBalancedEnd rest depth false false).map Nat.succ

/-- Positions of every opening brace in the text.  The outer loop of
`_extract_first_json_object` visits exactly these positions in order:
`text.find("{")` and then `text.find("{", start + 1)` on each retry. -/
def bracePositions (cs : List Char) : List Nat :=
  (List.range cs.length).filter (fun i => cs.getD i ' ' == '{')

/-- The candidate substring scanned from brace position `p`:
`text[start : i + 1]` in the source, when the depth-tracked scan finds a
balanced closing brace. -/
def candidateAt (cs : List Char) (p : Nat) : Option String :=
  (findBalancedEnd (cs.drop p) 0 false false).map
    (fun j => String.mk ((cs.drop p).take (j + 1)))

/-- Try each brace position in order: parse the balanced candidate if
one exists, return the first successful parse, and otherwise keep
scanning from the next brace — the retry behaviour of
`_extract_first_json_object` on a parse failure. -/
def tryCandidates (parse : String → Option JVal) (cs : List Char) :
    List Nat → Option JVal
  | [] => none
  | p :: rest =>
    match candidateAt cs p with
    | some cand =>
      match parse cand with
      | some v => some v
      | none => tryCandidates parse cs rest
    | none => tryCandidates parse cs rest

/-- `_extract_first_json_object` (src/utils_tagging.py, lines 31-70):
scan for the first balanced brace block, respecting strings and escapes,
parse it, and on failure continue from the next opening brace.  The
Python function returns `{}` when nothing parses; that outcome is
modelled as `none`. -/
def extract_first_json_object (text : String) : Option JVal :=
  if text = "" then none
  else tryCandidates jsonParse text.data (bracePositions text.data)

/-- The maximal top-level balanced brace blocks of a text, in order:
repeatedly locate the next opening brace, take its balanced block as
found by the depth-tracked scan, and resume after the block.  This
formalises the claim's notion of the "top-level {...} blocks" of an
input; it is used to state claim C2, not taken from the source. -/
def topLevelBlocksAux : Nat → List Char → List String
  | 0, _ => []
  | Nat.succ fuel, cs =>
    let tail := cs.dropWhile (fun c => ¬ c == '{')
    match tail with
    | [] => []
    | _ :: _ =>
      match findBalancedEnd tail 0 false false with
      | none => []
      | some j =>
        String.mk (tail.take (j + 1)) :: topLevelBlocksAux fuel (tail.drop (j + 1))

/-- Top-level balanced brace blocks of a string. -/
def topLevelBlocks (text : String) : List String :=
  topLevelBlocksAux (text.length + 1) text.data

-- ---------------------------------------------------------------------
-- Pure models of the Python string primitives used by the sources.
-- (Core `String` routines such as `toLower` or `trim` are avoided so
-- that every definition reduces inside the kernel.)
-- ---------------------------------------------------------------------

/-- Python `s.lower()` for the ASCII strings handled here. -/
def pyLower (s : String) : String := String.mk (s.data.map Char.toLower)

/-- The whitespace recognised by Python `str.strip()`. -/
def isWsChar (c : Char) : Bool :=
  c == ' ' || c == '\t' || c == '\n' || c == '\r' || c == '\x0b' || c == '\x0c'

/-- Python `s.strip()`. -/
def pyStrip (s : String) : String :=
  String.mk (((s.data.dropWhile isWsChar).reverse.dropWhile isWsChar).reverse)

/-- Splitting accumulator for `pySplitChar`. -/
def splitCharAux (sep : Char) : List Char → List Char → List String
  | acc, [] => [String.mk acc.reverse]
  | acc, c :: rest =>
    if c == sep then String.mk acc.reverse :: splitCharAux sep [] rest
    else splitCharAux sep (c :: acc) rest

/-- Python `s.split(sep)` for a one-character separator (empty pieces
are kept; the empty string yields `[""]`). -/
def pySplitChar (sep : Char) (s : String) : List String :=
  splitCharAux sep [] s.data

/-- Python `sep.join(parts)`. -/
def pyJoin (sep : String) (parts : List String) : String :=
  String.mk (List.intercalate sep.data (parts.map String.data))

/-- Python `s.replace(old, new)` for one-character arguments (the only
form the sources use). -/
def replaceChar (old new : Char) (s : String) : String :=
  String.mk (s.data.map (fun c => if c == old then new else c))

/-- The remainder of the text after the first occurrence of `sep`, or
`none` when `sep` does not occur: Python's `text.split(sep, 1)[1]`
guarded by `sep in text`. -/
def splitAfterFirst (sep : List Char) : List Char → Option (List Char)
  | [] => none
  | c :: rest =>
    if sep.isPrefixOf (c :: rest) then some (List.drop sep.length (c :: rest))
    else splitAfterFirst sep rest

/-- The part of the text before the first occurrence of `sep`, or the
whole text when `sep` does not occur: Python's `text.split(sep, 1)[0]`. -/
def beforeFirst (sep : List Char) : List Char → List Char
  | [] => []
  | c :: rest =>
    if sep.isPrefixOf (c :: rest) then []
    else c :: beforeFirst sep rest

/-- One fenced-block stage of `parse_json_response`: if the fence marker
occurs, take the text after its first occurrence up to the next "```",
strip it, and try to parse; any failure falls through to the next
stage. -/
def tryFence (fence : String) (text : String) : Option JVal :=
  match splitAfterFirst fence.data text.data with
  | some rest => jsonParse (pyStrip (String.mk (beforeFirst "```".data rest)))
  | none => none

/-- `parse_json_response` (src/utils_tagging.py, lines 92-115): try the
whole text as JSON, then a "```json" fenced block, then any "```"
fenced block, then the balanced-brace scan.  The Python function
returns `{}` when everything fails; that outcome is modelled as
`none` (its callers observe `{}` only through `.get`, which the caller
models below reproduce for `none`). -/
def parse_json_response (response_text : String) : Option JVal :=
  if response_text = "" then none
  else
    match jsonParse response_text with
    | some v => some v
    | none =>
      match tryFence "```json" response_text with
      | some v => some v
      | none =>
        match tryFence "```" response_text with
        | some v => some v
        | none => extract_first_json_object response_text

/-- Python truthiness for the JSON values that can appear in a parsed
response (`None`, booleans, numbers, strings, lists, dicts). -/
def jtruthy : JVal → Bool
  | jnull => false
  | jbool b => b
  | jnum n => n != 0
  | jstr s => s != ""
  | jarr xs => !xs.isEmpty
  | jobj fs => !fs.isEmpty

/-- Python `d.get(k)`: the value of the first binding of `k`, if any. -/
def dget (d : List (String × JVal)) (k : String) : Option JVal :=
  (d.find? (fun kv => kv.1 == k)).map (fun kv => kv.2)

/-- Truthiness of a `d.get(k)` result; Python's `or` chains skip a
lookup exactly when this is `false` (a missing key yields `None`,
which is falsy). -/
def optTruthy : Option JVal → Bool
  | none => false
  | some v => jtruthy v

/-- A Python `or` chain over dictionary lookups with a final default:
`d.get(k1) or d.get(k2) or ... or default`.  The first truthy lookup
wins; falsy values (and missing keys) are skipped. -/
def orChain (d : List (String × JVal)) (keys : List String) (default : JVal) :
    JVal :=
  match keys with
  | [] => default
  | k :: rest =>
    match dget d k with
    | some v => if jtruthy v then v else orChain d rest default
    | none => orChain d rest default

-- ---------------------------------------------------------------------
-- tag_normalization.py
-- ---------------------------------------------------------------------

/-- The canonical category vocabulary (src/tag_normalization.py,
lines 8-18). -/
def CANONICAL_CATEGORIES : List String :=
  ["ai/ml developer platform",
   "developer tools platform",
   "mobile banking app",
   "e-commerce platform",
   "social media app",
   "fitness tracker",
   "healthcare platform",
   "productivity app",
   "educational platform"]

/-- An exact non-negative fraction with value `num / den`, modelling
the real-valued similarity scores and thresholds without floating
point.  Comparisons cross-multiply, which agrees with the rational
order whenever denominators are positive (they are `1` or a positive
length sum everywhere below). -/
structure Score where
  num : Nat
  den : Nat

instance : LE Score := ⟨fun x y => x.num * y.den ≤ y.num * x.den⟩

instance : LT Score := ⟨fun x y => x.num * y.den < y.num * x.den⟩

instance (x y : Score) : Decidable (x ≤ y) :=
  inferInstanceAs (Decidable (x.num * y.den ≤ y.num * x.den))

instance (x y : Score) : Decidable (x < y) :=
  inferInstanceAs (Decidable (x.num * y.den < y.num * x.den))

/-- The default similarity threshold 0.85 (src/tag_normalization.py,
line 22). -/
def SIMILARITY_THRESHOLD : Score := Score.mk 85 100

/-- The positions in `b` (restricted to `[blo, bhi)`) holding character
`ch`, in ascending order — difflib's `b2j` lookup combined with its
in-range filtering inside `find_longest_match`. -/
def jPositions (b : List Char) (ch : Char) (blo bhi : Nat) : List Nat :=
  (List.range b.length).filter
    (fun j => decide (blo ≤ j) && decide (j < bhi) && (b.getD j ' ' == ch))

/-- Lookup in the `j2len` row of difflib's `find_longest_match`
(missing keys default to 0). -/
def j2lenGet (m : List (Nat × Nat)) (j : Nat) : Nat :=
  match m.find? (fun p => p.1 == j) with
  | some p => p.2
  | none => 0

/-- State of difflib's `find_longest_match` sweep: the current `j2len`
row and the best block found so far. -/
structure LMState where
  row : List (Nat × Nat)
  besti : Nat
  bestj : Nat
  bestsize : Nat

/-- difflib `SequenceMatcher.find_longest_match` on the ranges
`a[alo:ahi]`, `b[blo:bhi]`, without junk (the junk/popular machinery is
inert here: `isjunk=None` and `len(b) < 200` for every canonical
entry).  Ties are broken by the smallest `i`, then the smallest `j`,
because only strictly larger blocks replace the current best. -/
def findLongestMatch (a b : List Char) (alo ahi blo bhi : Nat) :
    Nat × Nat × Nat :=
  let step := fun (st : LMState) (i : Nat) =>
    let inner := (jPositions b (a.getD i ' ') blo bhi).foldl
      (fun (acc : List (Nat × Nat) × Nat × Nat × Nat) j =>
        let k := (if j = 0 then 0 else j2lenGet st.row (j - 1)) + 1
        let row2 := (j, k) :: acc.1
        if k > acc.2.2.2 then (row2, i + 1 - k, j + 1 - k, k)
        else (row2, acc.2.1, acc.2.2.1, acc.2.2.2))
      ([], st.besti, st.bestj, st.bestsize)
    LMState.mk inner.1 inner.2.1 inner.2.2.1 inner.2.2.2
  let final := (List.range' alo (ahi - alo)).foldl step (LMState.mk [] alo blo 0)
  (final.besti, final.bestj, final.bestsize)

/-- Total size of the matching blocks of difflib's
`get_matching_blocks`: recursively take the longest match and recurse
on the ranges to its left and right.  The fuel argument dominates the
recursion depth (each recursive call strictly shrinks the range sum). -/
def matchingSize (a b : List Char) : Nat → Nat → Nat → Nat → Nat → Nat
  | 0, _, _, _, _ => 0
  | Nat.succ fuel, alo, ahi, blo, bhi =>
    let m := findLongestMatch a b alo ahi blo bhi
    if m.2.2 = 0 then 0
    else
      m.2.2 + matchingSize a b fuel alo m.1 blo m.2.1 +
        matchingSize a b fuel (m.1 + m.2.2) ahi (m.2.1 + m.2.2) bhi

/-- `similarity_ratio` (src/tag_normalization.py, lines 25-27):
`SequenceMatcher(None, a.lower(), b.lower()).ratio()`, i.e.
`2*M/(len(a)+len(b))` with `M` the total matching-block size; difflib
returns 1.0 when both strings are empty. -/
def simScore (a b : String) : Score :=
  let x := (pyLower a).data
  let y := (pyLower b).data
  if x.length + y.length = 0 then Score.mk 1 1
  else
    Score.mk (2 * matchingSize x y (x.length + y.length + 1) 0 x.length 0 y.length)
      (x.length + y.length)

/-- `normalize_category` (src/tag_normalization.py, lines 30-70) with an
explicit threshold (the Python default `threshold=None` selects
`SIMILARITY_THRESHOLD`; see `normalize_categoryD`).  Python would
return `(None, False)` if the high-similarity branch were reached with
no best match recorded; that unreachable-`None` outcome is encoded as
the empty string.  The best-match loop (lines 56-63 of the source:
strictly better scores replace the best, so the first maximum in list
order wins) is factored out as `bestMatch`. -/
def bestMatch (category : String) : Option String × Score :=
  CANONICAL_CATEGORIES.foldl
    (fun (acc : Option String × Score) canonical =>
      let score := simScore category canonical
      if acc.2 < score then (some canonical, score) else acc)
    (none, Score.mk 0 1)

def normalize_category (category : String) (threshold : Score) : String × Bool :=
  if category = "" then ("", false)
  else if CANONICAL_CATEGORIES.any (fun c => pyLower c == pyLower category) then
    (pyLower category, false)
  else if threshold ≤ (bestMatch category).2 then
    ((bestMatch category).1.getD "", false)
  else (pyLower category, true)

/-- `normalize_category` called with the default threshold, as the
call sites in `_normalize_keys` do. -/
def normalize_categoryD (category : String) : String × Bool :=
  normalize_category category SIMILARITY_THRESHOLD

-- ---------------------------------------------------------------------
-- utils_tagging.py: _normalize_keys and generate_project_tags
-- ---------------------------------------------------------------------

/-- The alias priority list for the company field in `_normalize_keys`
(src/utils_tagging.py, line 130). -/
def companyAliases : List String :=
  ["company_name", "company", "brand", "brand_name"]

/-- The alias priority list for the category field in `_normalize_keys`
(src/utils_tagging.py, lines 134-140). -/
def categoryAliases : List String :=
  ["product_category", "category", "product_type", "app_type"]

/-- The alias priority list for the tags field in `_normalize_keys`
(src/utils_tagging.py, line 152). -/
def tagAliases : List String := ["descriptive_tags", "tags", "feature_tags"]

/-- Output record of `_normalize_keys`.  The tag list keeps raw JSON
values because Python passes non-string list elements through
unchanged. -/
structure NormData where
  company_name : String
  product_category : String
  descriptive_tags : List JVal

/-- Python `[t.strip() for t in s.split(",") if t.strip()]` producing
JSON strings. -/
def csvTags (s : String) : List JVal :=
  (((pySplitChar ',' s).map pyStrip).filter (fun t => t != "")).map jstr

/-- `_normalize_keys` (src/utils_tagging.py, lines 117-159): resolve
each logical field through a truthiness-filtering `or` chain over its
aliases, strip string values, normalize the category through
`normalize_category` (default threshold) when non-empty after
stripping, split a CSV tag string, and coerce non-list non-string tag
values to the empty list.  A non-dict argument yields the empty
record. -/
def pyNormalizeKeys (v : JVal) : NormData :=
  match v with
  | jobj d =>
    let company :=
      match orChain d companyAliases (jstr "") with
      | jstr s => pyStrip s
      | _ => ""
    let category :=
      match orChain d categoryAliases (jstr "") with
      | jstr s =>
        let t := pyStrip s
        if t = "" then t else (normalize_categoryD t).1
      | _ => ""
    let tags :=
      match orChain d tagAliases (jarr []) with
      | jstr s => csvTags s
      | jarr xs => xs
      | _ => []
    NormData.mk company category tags
  | _ => NormData.mk "" "" []

/-- `MAX_PROJECT_TAGS` (src/config.py, line 21). -/
def MAX_PROJECT_TAGS : Nat := 8

/-- The fallback tag list of `generate_project_tags`
(src/utils_tagging.py, lines 254-256): a slug derived from the project
name (or "project" for a falsy name) plus two static tags. -/
def fallbackProjectTags (project_name : String) : List JVal :=
  let base :=
    if project_name = "" then "project"
    else replaceChar ' ' '-' (pyStrip (pyLower project_name))
  [jstr base, jstr "ui design", jstr "interface"]

/-- Coercion applied to the looked-up `project_tags` value in
`generate_project_tags` (src/utils_tagging.py, lines 243-247): a CSV
string is split, a list is kept as is, anything else becomes the empty
list. -/
def coerceTags : JVal → List JVal
  | jstr s => csvTags s
  | jarr xs => xs
  | _ => []

/-- The `try`-block tail of `generate_project_tags` after the model
call returned `raw` (src/utils_tagging.py, lines 239-250): parse the
response, look up `"project_tags"` with default `[]`, coerce, and cap
at `MAX_PROJECT_TAGS`.  `none` models an exception inside the block:
`result.get` raises `AttributeError` when the parsed response is not a
dict.  A failed parse behaves as the Python `{}` (whose `.get` yields
the default). -/
def gptTryBody (raw : String) : Option (List JVal) :=
  match parse_json_response raw with
  | none => some []
  | some (jobj fields) =>
    some ((coerceTags ((dget fields "project_tags").getD (jarr []))).take
      MAX_PROJECT_TAGS)
  | some _ => none

/-- `generate_project_tags` (src/utils_tagging.py, lines 184-256).  The
external model call is abstracted into `callModel`: `none` models the
call (or the subsequent `.get` on a non-dict response) raising, which
the `except` clause turns into the fallback list; `some raw` models a
call returning the text `raw`.  Message assembly and image sampling do
not influence the returned value and are not modelled. -/
def generate_project_tags (callModel : Option String)
    (image_paths : List String) (project_name : String) : List JVal :=
  if image_paths.isEmpty then []
  else
    match callModel with
    | none => fallbackProjectTags project_name
    | some raw =>
      match gptTryBody raw with
      | some tags => tags
      | none => fallbackProjectTags project_name

-- ---------------------------------------------------------------------
-- utils_db.py: the ChromaDB-backed catalog store
-- ---------------------------------------------------------------------

/-- The flat string metadata stored per screenshot
(src/utils_db.py, lines 59-67); tag collections are comma-joined. -/
structure Metadata where
  project_name : String
  file_path : String
  company_name : String
  product_category : String
  project_tags : String
  descriptive_tags : String
  all_tags : String

/-- The screenshots collection: document ids mapped to their metadata. -/
abbrev Collection := List (String × Metadata)

/-- `collection.get(ids=[doc_id])` projected to one record. -/
def colGet (col : Collection) (id : String) : Option Metadata :=
  (List.find? (fun e => e.1 == id) col).map (fun e => e.2)

/-- `collection.update(ids=[doc_id], metadatas=[md])`: replace the
metadata stored under `id`. -/
def colUpdate (col : Collection) (id : String) (md : Metadata) : Collection :=
  List.map (fun e => if e.1 == id then (id, md) else e) col

/-- `collection.add` with an existing id silently overwrites in the
reference system (spec section 9); otherwise the record is appended. -/
def colUpsert (col : Collection) (id : String) (md : Metadata) : Collection :=
  if List.any col (fun e => e.1 == id) then colUpdate col id md
  else col ++ [(id, md)]

/-- `list(set(...))` over tag lists.  Python's set iteration order is
unspecified; it is modelled as first-occurrence order, which is
immaterial for every set-level statement proved below. -/
def pyDedup (l : List String) : List String := pyDedupAux [] l
where
  pyDedupAux : List String → List String → List String
    | _, [] => []
    | seen, x :: xs =>
      if x ∈ seen then pyDedupAux seen xs else x :: pyDedupAux (x :: seen) xs

/-- `os.path.basename`: the final path component. -/
def basename (path : String) : String := ((pySplitChar '/' path).getLastD path)

/-- The dict argument `image_data` of `add_screenshot_to_db` and
`new_data` of `update_screenshot_metadata`: each key may be absent
(`none`), in which case `.get` supplies the empty default. -/
structure TagData where
  company_name : Option String
  product_category : Option String
  descriptive_tags : Option (List String)

/-- `add_screenshot_to_db` (src/utils_db.py, lines 34-93): derive the
document id from the project name and file base name, read each field
of `image_data` with an empty default, combine all tags with
`list(set(project_tags + descriptive_tags))`, and persist the
comma-joined metadata.  Embedding registration and image decoding do
not affect the stored metadata and are not modelled. -/
def add_screenshot_to_db (col : Collection) (image_path project_name : String)
    (project_tags : List String) (image_data : TagData) : Collection × String :=
  let doc_id := project_name ++ "_" ++ basename image_path
  let company_name := image_data.company_name.getD ""
  let product_category := image_data.product_category.getD ""
  let descriptive_tags := image_data.descriptive_tags.getD []
  let all_tags := pyDedup (project_tags ++ descriptive_tags)
  let md := Metadata.mk project_name image_path company_name product_category
    (pyJoin "," project_tags)
    (pyJoin "," descriptive_tags)
    (pyJoin "," all_tags)
  (colUpsert col doc_id md, doc_id)

/-- The metadata written by `update_screenshot_metadata`
(src/utils_db.py, lines 143-155): overwrite the three editable fields
with `.get` defaults, re-split the stored `project_tags` string (note:
without guarding against the empty string), and recompute `all_tags`. -/
def updatedMeta (md : Metadata) (nd : TagData) : Metadata :=
  let descriptive_tags := nd.descriptive_tags.getD []
  let project_tags := pySplitChar ',' md.project_tags
  let all_tags := pyDedup (project_tags ++ descriptive_tags)
  { md with
    company_name := nd.company_name.getD ""
    product_category := nd.product_category.getD ""
    descriptive_tags := pyJoin "," descriptive_tags
    all_tags := pyJoin "," all_tags }

/-- `update_screenshot_metadata` (src/utils_db.py, lines 126-167):
`false` when the id is unknown, otherwise persist the rewritten
metadata and return `true`. -/
def update_screenshot_metadata (col : Collection) (doc_id : String)
    (nd : TagData) : Collection × Bool :=
  match colGet col doc_id with
  | none => (col, false)
  | some md => (colUpdate col doc_id (updatedMeta md nd), true)

/-- The per-record rewrite of `update_project_tags`
(src/utils_db.py, lines 193-208): store the new project tags, split the
stored descriptive tags (guarded against the empty string), and
recompute `all_tags`. -/
def projectRetagged (md : Metadata) (new_project_tags : List String) : Metadata :=
  let descriptive_tags :=
    if md.descriptive_tags = "" then [] else pySplitChar ',' md.descriptive_tags
  let all_tags := pyDedup (new_project_tags ++ descriptive_tags)
  { md with
    project_tags := pyJoin "," new_project_tags
    all_tags := pyJoin "," all_tags }

/-- `update_project_tags` (src/utils_db.py, lines 170-214): rewrite
every record of the project and return how many were updated (0 when
the project has no records). -/
def update_project_tags (col : Collection) (project_name : String)
    (new_project_tags : List String) : Collection × Nat :=
  let ids := (List.filter (fun e => e.2.project_name == project_name) col).map
    (fun e => e.1)
  if ids.isEmpty then (col, 0)
  else
    (List.map
      (fun e =>
        if e.2.project_name == project_name then
          (e.1, projectRetagged e.2 new_project_tags)
        else e) col,
     ids.length)

/-- `delete_screenshot` (src/utils_db.py, lines 217-242) over the
collection and a list of existing file paths: when the id is known,
remove the record, remove the backing file only if it exists
(`os.path.exists` guard), and return `true`; otherwise return `false`
and change nothing. -/
def delete_screenshot (col : Collection) (fs : List String) (doc_id : String) :
    Collection × List String × Bool :=
  match colGet col doc_id with
  | none => (col, fs, false)
  | some md =>
    (List.filter (fun e => !(e.1 == doc_id)) col,
     if md.file_path ∈ fs then fs.erase md.file_path else fs,
     true)

/-- Decode a comma-joined metadata field back to the tag list it
stores: the empty string encodes the empty tag collection (the
encoding of an empty list, and how the repository's guarded
`.split(',')` readers treat it). -/
def decodeTags (s : String) : List String :=
  if s = "" then [] else pySplitChar ',' s

-- ---------------------------------------------------------------------
-- utils_search.py
-- ---------------------------------------------------------------------

/-- The project `where` clause built identically by `search_screenshots`
(src/utils_search.py, lines 26-28) and `search_by_tags` (lines 82-89):
a truthy filter different from the literal "All Projects" restricts to
that project; `None`, the empty string, and "All Projects" leave the
query unrestricted. -/
def build_where (project_filter : Option String) : Option String :=
  match project_filter with
  | none => none
  | some pf => if pf ≠ "" ∧ pf ≠ "All Projects" then some pf else none

/-- Python `query in text` substring containment. -/
def isSubstr (needle : List Char) : List Char → Bool
  | [] => needle.isEmpty
  | c :: rest => needle.isPrefixOf (c :: rest) || isSubstr needle rest

/-- `s.split(',') if s else []`, the guarded split used when formatting
stored tag fields back into lists. -/
def guardedSplit (s : String) : List String :=
  if s = "" then [] else pySplitChar ',' s

/-- A result dict of `search_by_tags` (src/utils_search.py,
lines 102-112).  `image_tags` duplicates `descriptive_tags` because the
`descriptive_tags` key is always present in stored metadata. -/
structure TagHit where
  id : String
  path : String
  project : String
  company_name : String
  product_category : String
  project_tags : List String
  descriptive_tags : List String
  image_tags : List String

/-- Format one stored record as `search_by_tags` does. -/
def toTagHit (id : String) (md : Metadata) : TagHit :=
  TagHit.mk id md.file_path md.project_name md.company_name
    md.product_category (guardedSplit md.project_tags)
    (guardedSplit md.descriptive_tags) (guardedSplit md.descriptive_tags)

/-- `search_by_tags` (src/utils_search.py, lines 64-118): fetch the
records matching the project `where` clause, keep those whose stored
`all_tags` string contains the lowercased query as a substring
(case-insensitively), and truncate to `n_results`. -/
def search_by_tags (col : Collection) (tag_query : String) (n_results : Nat)
    (project_filter : Option String) : List TagHit :=
  let w := build_where project_filter
  let results :=
    match w with
    | none => col
    | some pf => List.filter (fun e => e.2.project_name == pf) col
  let tql := pyLower tag_query
  let hits := results.filter (fun e => isSubstr tql.data (pyLower e.2.all_tags).data)
  (hits.map (fun e => toTagHit e.1 e.2)).take n_results

/-- A result dict of `search_screenshots` (src/utils_search.py,
lines 43-55), carrying the distance reported by the index and
`similarity = 1 - distance`.  Distances are modelled as rationals. -/
structure SearchHit where
  id : String
  path : String
  project : String
  company_name : String
  product_category : String
  project_tags : List String
  descriptive_tags : List String
  image_tags : List String
  distance : Rat
  similarity : Rat

/-- `search_screenshots` (src/utils_search.py, lines 8-61).  The
vector query `collection.query(query_texts=[query], n_results=n,
where=w)` is an external nearest-neighbour call; it is abstracted as
the oracle `queryIndex`, which receives exactly the query text, the
result count, and the `where` clause the source builds, and returns
scored records.  The source then formats each returned record. -/
def search_screenshots
    (queryIndex : String → Nat → Option String → List (String × Metadata × Rat))
    (query : String) (n_results : Nat) (project_filter : Option String) :
    List SearchHit :=
  let w := build_where project_filter
  (queryIndex query n_results w).map
    (fun r =>
      SearchHit.mk r.1 r.2.1.file_path r.2.1.project_name r.2.1.company_name
        r.2.1.product_category (guardedSplit r.2.1.project_tags)
        (guardedSplit r.2.1.descriptive_tags) (guardedSplit r.2.1.descriptive_tags)
        r.2.2 (1 - r.2.2))

/-- A one-record collection for a project named "P1" whose tags contain
"design"; used to exhibit that an "All Projects" filter returns records
of other projects. -/
def sampleColC9 : Collection :=
  [("P1_home.png",
    Metadata.mk "P1" "shots/home.png" "Acme" "productivity app"
      "design system,mobile" "login screen" "design system,mobile,login screen")]

/-- A vector-index oracle over `sampleColC9` that honours the `where`
clause it receives (returns only records matching the project filter),
reporting distance 0; used to exhibit `search_screenshots` results
under an "All Projects" filter. -/
def sampleIndexC9 : String → Nat → Option String → List (String × Metadata × Rat) :=
  fun _ _ w =>
    (sampleColC9.filter
      (fun e => match w with
        | none => true
        | some pf => e.2.project_name == pf)).map (fun e => (e.1, e.2, 0))

/-- Whether the depth-tracked candidate starting at brace position `q`
fails to parse (or does not exist); the scan of
`_extract_first_json_object` moves past exactly these positions. -/
def candFails (cs : List Char) (q : Nat) : Bool :=
  match candidateAt cs q with
  | some s => (jsonParse s).isNone
  | none => true

/-- A model response whose first top-level block is invalid JSON and
contains an opening brace hidden inside a quoted string, followed by a
valid second block binding the key "ok" to 1. -/
def c2goodText : String := "\x7b\"a\": \"\x7b\", bad\x7d \x7b\"ok\": 1\x7d"

/-- A text whose invalid first top-level block contains a nested valid
object, followed by a valid second top-level block. -/
def c2nestedText : String := "\x7b\"a\": \x7b\"b\": 1\x7d x\x7d \x7b\"c\": 2\x7d"

/-- A concrete stored record used to instantiate the deletion claim. -/
def mdC8 : Metadata :=
  Metadata.mk "P" "shots/p/x.png" "Acme" "crm" "a,b" "c" "a,b,c"

/-- A concrete stored record used to instantiate the metadata-update
claim. -/
def mdC10 : Metadata :=
  Metadata.mk "P" "p/x.png" "Acme" "crm" "a,b" "c" "a,b,c"

-- =====================================================================
-- Theorems
-- =====================================================================

-- Helper lemmas ------------------------------------------------------

/-- Looking up an id absent from every entry of a filtered collection
(deleting by id removes every binding of that id). -/
theorem colGet_filter_ne (col : Collection) (id : String) :
    colGet (List.filter (fun e => !(e.1 == id)) col) id = none := by
  induction col with
  | nil => rfl
  | cons e rest ih =>
    cases he : (e.1 == id) with
    | true =>
      have hdrop : List.filter (fun e => !(e.1 == id)) (e :: rest) =
          List.filter (fun e => !(e.1 == id)) rest := by
        simp [List.filter_cons, he]
      rw [hdrop]; exact ih
    | false =>
      have hkeep : List.filter (fun e => !(e.1 == id)) (e :: rest) =
          e :: List.filter (fun e => !(e.1 == id)) rest := by
        simp [List.filter_cons, he]
      rw [hkeep]
      have hskip : colGet (e :: List.filter (fun e => !(e.1 == id)) rest) id =
          colGet (List.filter (fun e => !(e.1 == id)) rest) id := by
        simp [colGet, List.find?_cons, he]
      rw [hskip]; exact ih

/-- Updating a stored id rewrites what a lookup of that id returns. -/
theorem colGet_colUpdate (col : Collection) (id : String) (md' : Metadata)
    (h : (colGet col id).isSome) :
    colGet (colUpdate col id md') id = some md' := by
  induction col with
  | nil => simp [colGet] at h
  | cons e rest ih =>
    by_cases he : e.1 = id
    · have hupd : colUpdate (e :: rest) id md' = (id, md') :: colUpdate rest id md' := by
        simp [colUpdate, he]
      rw [hupd]
      simp [colGet, List.find?_cons]
    · have h' : (colGet rest id).isSome := by
        simpa [colGet, List.find?_cons, he] using h
      have hupd : colUpdate (e :: rest) id md' = e :: colUpdate rest id md' := by
        simp [colUpdate, he]
      have hskip : colGet (e :: colUpdate rest id md') id =
          colGet (colUpdate rest id md') id := by
        simp [colGet, List.find?_cons, he]
      rw [hupd, hskip]
      exact ih h'

/-- Cross-multiplied fraction comparison is transitive through a
middle fraction with positive denominator. -/
theorem scoreLeTrans {a b c : Score} (hb : 0 < b.den) (hab : a ≤ b)
    (hbc : b ≤ c) : a ≤ c := by
  have hab' : a.num * b.den ≤ b.num * a.den := hab
  have hbc' : b.num * c.den ≤ c.num * b.den := hbc
  have h1 : a.num * c.den * b.den ≤ c.num * a.den * b.den := by
    calc a.num * c.den * b.den = (a.num * b.den) * c.den := by ring
    _ ≤ (b.num * a.den) * c.den := Nat.mul_le_mul_right _ hab'
    _ = (b.num * c.den) * a.den := by ring
    _ ≤ (c.num * b.den) * a.den := Nat.mul_le_mul_right _ hbc'
    _ = c.num * a.den * b.den := by ring
  exact Nat.le_of_mul_le_mul_right h1 hb

-- Claim C5 ------------------------------------------------------------

set_option maxRecDepth 4000 in
/-- Claim C5 (counterexample): the claim states that whitespace-only
input returns `("", false)`, but `normalize_category " "` returns the
single-space string marked novel (the Python guard `if not category`
only special-cases the empty string). -/
theorem c5_counterexample :
    normalize_categoryD " " = (" ", true) ∧
    ((" ", true) : String × Bool) ≠ ("", false) := by
  exact ⟨by decide, by decide⟩

set_option maxRecDepth 4000 in
/-- Claim C5 (amended): only the empty string is special-cased to
`("", false)` (for every threshold); a whitespace-only candidate is
processed like any other and, at the default threshold, comes back
lowercased and marked novel. -/
theorem c5_empty_special_case :
    (∀ t : Score, normalize_category "" t = ("", false)) ∧
    normalize_categoryD " " = (" ", true) := by
  refine ⟨fun t => ?_, by decide⟩
  simp [normalize_category]

-- Claim C7 ------------------------------------------------------------

/-- Claim C7: for a fixed candidate (and the fixed canonical list), the
classification of `normalize_category` is monotone in the threshold:
a canonical match (`isNovel = false`) at threshold `t` stays a
canonical match at every threshold below `t`. -/
theorem c7_threshold_monotone (category : String) (t t' : Score)
    (htden : 0 < t.den) (hle : t' ≤ t)
    (h : (normalize_category category t).2 = false) :
    (normalize_category category t').2 = false := by
  unfold normalize_category at h ⊢
  by_cases h1 : category = ""
  · rw [if_pos h1]
  · rw [if_neg h1] at h ⊢
    by_cases h2 : (CANONICAL_CATEGORIES.any fun c => pyLower c == pyLower category) = true
    · rw [if_pos h2]
    · rw [if_neg h2] at h ⊢
      by_cases h3 : t ≤ (bestMatch category).2
      · rw [if_pos (scoreLeTrans htden hle h3)]
      · rw [if_neg h3] at h
        exact absurd h (by simp)

set_option maxRecDepth 4000 in
/-- Witness for C7 at a concrete input with concrete thresholds 1 and
1/2: "mobile banking app" is a canonical match at threshold 1, hence
also at the lower threshold. -/
theorem c7_threshold_monotone_witness :
    Score.mk 1 2 ≤ Score.mk 1 1 ∧
    (normalize_category "mobile banking app" (Score.mk 1 1)).2 = false ∧
    (normalize_category "mobile banking app" (Score.mk 1 2)).2 = false :=
  ⟨by decide,
   by decide,
   c7_threshold_monotone "mobile banking app" (Score.mk 1 1) (Score.mk 1 2)
     (by decide) (by decide) (by decide)⟩

-- Claim C8 ------------------------------------------------------------

/-- Claim C8: `delete_screenshot` removes an existing record and
returns `true` for every state of the filesystem (in particular when
the backing file is already absent), and returns `false` leaving
everything unchanged when the id is unknown. -/
theorem c8_delete_tolerant (col : Collection) (fs : List String)
    (doc_id : String) :
    (∀ md, colGet col doc_id = some md →
      (delete_screenshot col fs doc_id).2.2 = true ∧
      colGet (delete_screenshot col fs doc_id).1 doc_id = none) ∧
    (colGet col doc_id = none →
      delete_screenshot col fs doc_id = (col, fs, false)) := by
  constructor
  · intro md h
    unfold delete_screenshot
    rw [h]
    exact ⟨rfl, colGet_filter_ne col doc_id⟩
  · intro h
    unfold delete_screenshot
    rw [h]

/-- Witness for C8: deleting an existing record succeeds both when its
file is absent and when it is present, and deleting an unknown id
returns `false`. -/
theorem c8_delete_tolerant_witness :
    (delete_screenshot [("i", mdC8)] [] "i").2.2 = true ∧
    colGet (delete_screenshot [("i", mdC8)] ["shots/p/x.png"] "i").1 "i" = none ∧
    delete_screenshot [] [] "ghost" = ([], [], false) :=
  ⟨((c8_delete_tolerant [("i", mdC8)] [] "i").1 mdC8 rfl).1,
   ((c8_delete_tolerant [("i", mdC8)] ["shots/p/x.png"] "i").1 mdC8 rfl).2,
   (c8_delete_tolerant [] [] "ghost").2 rfl⟩

-- Claim C9 ------------------------------------------------------------

/-- Claim C9: both query operations treat a `projectFilter` equal to
the literal "All Projects" — like an empty or missing filter — as no
project restriction: the built `where` clause is `None`, the results
coincide with the unfiltered call, and a concrete store shows such a
call returning records of a project other than "All Projects". -/
theorem c9_all_projects_unrestricted :
    (build_where (some "All Projects") = none ∧ build_where (some "") = none ∧
      build_where none = none) ∧
    (∀ queryIndex query n,
      search_screenshots queryIndex query n (some "All Projects") =
        search_screenshots queryIndex query n none ∧
      search_screenshots queryIndex query n (some "") =
        search_screenshots queryIndex query n none) ∧
    (∀ col query n,
      search_by_tags col query n (some "All Projects") =
        search_by_tags col query n none ∧
      search_by_tags col query n (some "") =
        search_by_tags col query n none) ∧
    (search_by_tags sampleColC9 "design" 5 (some "All Projects")).map
      (fun h => h.project) = ["P1"] ∧
    (search_screenshots sampleIndexC9 "login" 5 (some "All Projects")).map
      (fun h => h.project) = ["P1"] :=
  ⟨⟨rfl, rfl, rfl⟩, fun _ _ _ => ⟨rfl, rfl⟩, fun _ _ _ => ⟨rfl, rfl⟩, rfl, rfl⟩

-- Claim C10 -----------------------------------------------------------

/-- Claim C10: `update_screenshot_metadata` is a full overwrite of the
three editable fields — omitted fields become empty — while the
record's project name, file path and project tags are untouched. -/
theorem c10_update_full_overwrite (col : Collection) (id : String)
    (nd : TagData) (md : Metadata) (h : colGet col id = some md) :
    (update_screenshot_metadata col id nd).2 = true ∧
    colGet (update_screenshot_metadata col id nd).1 id =
      some (updatedMeta md nd) ∧
    (updatedMeta md nd).project_name = md.project_name ∧
    (updatedMeta md nd).file_path = md.file_path ∧
    (updatedMeta md nd).project_tags = md.project_tags ∧
    (updatedMeta md nd).company_name = nd.company_name.getD "" ∧
    (updatedMeta md nd).product_category = nd.product_category.getD "" ∧
    (updatedMeta md nd).descriptive_tags =
      pyJoin "," (nd.descriptive_tags.getD []) ∧
    (nd.company_name = none → (updatedMeta md nd).company_name = "") ∧
    (nd.product_category = none → (updatedMeta md nd).product_category = "") ∧
    (nd.descriptive_tags = none → (updatedMeta md nd).descriptive_tags = "") := by
  have hsome : (colGet col id).isSome := by rw [h]; rfl
  unfold update_screenshot_metadata
  rw [h]
  refine ⟨rfl, colGet_colUpdate col id _ hsome, rfl, rfl, rfl, rfl, rfl, rfl,
    ?_, ?_, ?_⟩
  · intro hn; simp [updatedMeta, hn]
  · intro hn; simp [updatedMeta, hn]
  · intro hn; simp [updatedMeta, hn]; rfl

/-- Witness for C10: updating a concrete record with an all-absent
new-data mapping empties the three editable fields and keeps the
frame fields. -/
theorem c10_update_full_overwrite_witness :
    (update_screenshot_metadata [("d1", mdC10)] "d1"
      (TagData.mk none none none)).2 = true ∧
    colGet (update_screenshot_metadata [("d1", mdC10)] "d1"
      (TagData.mk none none none)).1 "d1" =
      some (updatedMeta mdC10 (TagData.mk none none none)) ∧
    (updatedMeta mdC10 (TagData.mk none none none)).company_name = "" ∧
    (updatedMeta mdC10 (TagData.mk none none none)).project_tags = "a,b" := by
  have H := c10_update_full_overwrite [("d1", mdC10)] "d1"
    (TagData.mk none none none) mdC10 rfl
  exact ⟨H.1, H.2.1, H.2.2.2.2.2.2.2.2.1 rfl, H.2.2.2.2.1.trans rfl⟩

-- Claim C1 ------------------------------------------------------------

/-- Claim C1 (code bug): the all-tags invariant is violated by
`update_screenshot_metadata`.  Creating a screenshot with no project
tags persists `project_tags = ""`; the update then re-splits that
empty string without a guard, obtaining `[""]`, so the recomputed
`all_tags` string ",a" carries a phantom empty tag and its decoded tag
set is not the union of the decoded `project_tags` and
`descriptive_tags` sets. -/
theorem c1_alltags_union_violated :
    colGet
      (update_screenshot_metadata
        (add_screenshot_to_db [] "a.png" "P" [] (TagData.mk none none none)).1
        "P_a.png" (TagData.mk none none (some ["a"]))).1 "P_a.png" =
      some (Metadata.mk "P" "a.png" "" "" "" "a" ",a") ∧
    "" ∈ decodeTags ",a" ∧ "" ∉ decodeTags "" ∧ "" ∉ decodeTags "a" ∧
    ¬ (∀ tag, tag ∈ decodeTags ",a" ↔
        (tag ∈ decodeTags "" ∨ tag ∈ decodeTags "a")) := by
  refine ⟨rfl, by decide, by decide, by decide, fun hall => ?_⟩
  rcases (hall "").mp (by decide) with hc | hc
  · exact (by decide : "" ∉ decodeTags "") hc
  · exact (by decide : "" ∉ decodeTags "a") hc

-- Claim C4 ------------------------------------------------------------

/-- Claim C4 (counterexample): the claim states that an empty
extraction also triggers the deterministic fallback, but a successful
model call whose text yields no tags makes `generate_project_tags`
return the empty list, not the non-empty fallback. -/
theorem c4_counterexample :
    generate_project_tags (some "I cannot determine the tags")
      ["img.png"] "demo" = [] ∧
    fallbackProjectTags "demo" ≠ [] :=
  ⟨rfl, by simp [fallbackProjectTags]⟩

/-- Claim C4 (amended): with a non-empty image list,
`generate_project_tags` returns the deterministic fallback — project
slug plus two static tags, never empty — when the external call
raises; when the call succeeds but nothing is extracted, it returns
the empty list (the `except` clause does not cover this case). -/
theorem c4_fallback_on_exception (image_paths : List String)
    (project_name : String) (h : image_paths ≠ []) :
    generate_project_tags none image_paths project_name =
      fallbackProjectTags project_name ∧
    fallbackProjectTags project_name ≠ [] ∧
    (∀ raw, gptTryBody raw = some [] →
      generate_project_tags (some raw) image_paths project_name = []) := by
  have hne : image_paths.isEmpty = false := by
    cases image_paths with
    | nil => exact absurd rfl h
    | cons a l => rfl
  refine ⟨?_, ?_, ?_⟩
  · simp [generate_project_tags, hne]
  · simp [fallbackProjectTags]
  · intro raw hraw
    simp [generate_project_tags, hne, hraw]

/-- Witness for C4 at concrete inputs: an exception falls back to the
slug-plus-static tags, and a tag-free response text produces the empty
list. -/
theorem c4_fallback_on_exception_witness :
    generate_project_tags none ["one.png"] "Site Redesign" =
      fallbackProjectTags "Site Redesign" ∧
    generate_project_tags (some "no structured output here")
      ["one.png"] "Site Redesign" = [] :=
  ⟨(c4_fallback_on_exception ["one.png"] "Site Redesign" (by simp)).1,
   (c4_fallback_on_exception ["one.png"] "Site Redesign" (by simp)).2.2
     "no structured output here" rfl⟩

-- Claim C6 ------------------------------------------------------------

/-- The best-score fold of `normalize_category` stays strictly below
`t` when the accumulator does and every remaining score does. -/
theorem bestFold_lt (category : String) (t : Score) :
    ∀ (l : List String) (acc : Option String × Score),
      (∀ c ∈ l, simScore category c < t) → acc.2 < t →
      (l.foldl
        (fun (acc : Option String × Score) canonical =>
          let score := simScore category canonical
          if acc.2 < score then (some canonical, score) else acc) acc).2 < t := by
  intro l
  induction l with
  | nil => intro acc _ hacc; simpa using hacc
  | cons c cs ih =>
    intro acc hall hacc
    simp only [List.foldl_cons]
    refine ih _ (fun x hx => hall x (List.mem_cons_of_mem _ hx)) ?_
    by_cases hgt : acc.2 < simScore category c
    · simpa [hgt] using hall c (List.mem_cons_self c cs)
    · simpa [hgt] using hacc

/-- Claim C6 (amended): a non-empty candidate with no case-insensitive
exact canonical match and every similarity score strictly below the
threshold comes back with `isNovel = true` and the lowercased — but
NOT trimmed — candidate (the source never strips the input). -/
theorem c6_novel_below_threshold (category : String) (t : Score)
    (hne : category ≠ "")
    (hex : CANONICAL_CATEGORIES.any (fun c => pyLower c == pyLower category) = false)
    (hall : ∀ c ∈ CANONICAL_CATEGORIES, simScore category c < t) :
    normalize_category category t = (pyLower category, true) := by
  have h0 : (simScore category "ai/ml developer platform").num * t.den <
      t.num * (simScore category "ai/ml developer platform").den :=
    hall "ai/ml developer platform" (by simp [CANONICAL_CATEGORIES])
  have htnum : 0 < t.num := by
    rcases Nat.eq_zero_or_pos t.num with hz | hp
    · rw [hz] at h0; omega
    · exact hp
  have hinit : (Score.mk 0 1 : Score) < t := by
    show 0 * t.den < t.num * 1
    simpa using htnum
  have hlt : (bestMatch category).2 < t := by
    unfold bestMatch
    exact bestFold_lt category t CANONICAL_CATEGORIES (none, Score.mk 0 1) hall hinit
  have hnotle : ¬ (t ≤ (bestMatch category).2) := by
    intro hle
    have h1 : t.num * (bestMatch category).2.den ≤
        (bestMatch category).2.num * t.den := hle
    have h2 : (bestMatch category).2.num * t.den <
        t.num * (bestMatch category).2.den := hlt
    omega
  unfold normalize_category
  rw [if_neg hne, if_neg (by simp [hex]), if_neg hnotle]

set_option maxRecDepth 4000 in
/-- Witness for C6: "zzzqqq" shares nothing with the canonical list,
so it is returned lowercased and novel. -/
theorem c6_novel_below_threshold_witness :
    (∀ c ∈ CANONICAL_CATEGORIES, simScore "zzzqqq" c < SIMILARITY_THRESHOLD) ∧
    normalize_category "zzzqqq" SIMILARITY_THRESHOLD = ("zzzqqq", true) :=
  ⟨by decide,
   c6_novel_below_threshold "zzzqqq" SIMILARITY_THRESHOLD (by decide) (by decide)
     (by decide)⟩

set_option maxRecDepth 8000 in
/-- Claim C6 (counterexample): a candidate with surrounding whitespace
and no close canonical entry is returned lowercased but with its
whitespace intact, not equal to the lowercased trimmed input the claim
specifies. -/
theorem c6_counterexample :
    (∀ c ∈ CANONICAL_CATEGORIES,
      simScore " flying car dashboard " c < SIMILARITY_THRESHOLD) ∧
    normalize_categoryD " flying car dashboard " =
      (" flying car dashboard ", true) ∧
    (" flying car dashboard " : String) ≠
      pyLower (pyStrip " flying car dashboard ") :=
  ⟨by decide, by decide, by decide⟩

-- Claim C3 ------------------------------------------------------------

/-- A Python `or` chain over dictionary lookups returns the value of
the first alias whose lookup is truthy, regardless of the aliases
after it. -/
theorem orChain_first_truthy (d : List (String × JVal)) :
    ∀ (keys : List String) (i : Nat) (k : String) (v default : JVal),
      keys.get? i = some k → dget d k = some v → jtruthy v = true →
      (∀ j, j < i → optTruthy (dget d (keys.getD j "")) = false) →
      orChain d keys default = v := by
  intro keys
  induction keys with
  | nil => intro i k v default hk; simp at hk
  | cons k0 rest ih =>
    intro i k v default hk hv ht hearlier
    cases i with
    | zero =>
      rw [List.get?_cons_zero] at hk
      injection hk with hk
      subst hk
      simp [orChain, hv, ht]
    | succ i' =>
      have h0 : optTruthy (dget d k0) = false := by
        simpa [List.getD] using hearlier 0 (Nat.succ_pos i')
      have htail : ∀ j, j < i' → optTruthy (dget d (rest.getD j "")) = false := by
        intro j hj
        simpa [List.getD] using hearlier (j + 1) (Nat.succ_lt_succ hj)
      have hk' : rest.get? i' = some k := by simpa using hk
      cases hd : dget d k0 with
      | none =>
        simp only [orChain, hd]
        exact ih i' k v default hk' hv ht htail
      | some v0 =>
        have hv0 : jtruthy v0 = false := by
          rw [hd] at h0; simpa [optTruthy] using h0
        simp only [orChain, hd, hv0]
        simp only [Bool.false_eq_true, if_false]
        exact ih i' k v default hk' hv ht htail

/-- Claim C3 (amended): `_normalize_keys` resolves each logical field
from the first alias, in the fixed priority order, whose value is
TRUTHY — aliases that are present but hold a falsy value (empty
string, `None`, `0`, empty list) are skipped, not used. -/
theorem c3_alias_first_truthy :
    (∀ (d : List (String × JVal)) (i : Nat) (k s : String),
      companyAliases.get? i = some k →
      dget d k = some (jstr s) → s ≠ "" →
      (∀ j, j < i → optTruthy (dget d (companyAliases.getD j "")) = false) →
      (pyNormalizeKeys (jobj d)).company_name = pyStrip s) ∧
    (∀ (d : List (String × JVal)) (i : Nat) (k s : String),
      categoryAliases.get? i = some k →
      dget d k = some (jstr s) → s ≠ "" →
      (∀ j, j < i → optTruthy (dget d (categoryAliases.getD j "")) = false) →
      (pyNormalizeKeys (jobj d)).product_category =
        (if pyStrip s = "" then pyStrip s
         else (normalize_categoryD (pyStrip s)).1)) := by
  constructor
  · intro d i k s hk hv hs hearlier
    have hchain := orChain_first_truthy d companyAliases i k (jstr s) (jstr "")
      hk hv (by simpa [jtruthy] using hs) hearlier
    simp [pyNormalizeKeys, hchain]
  · intro d i k s hk hv hs hearlier
    have hchain := orChain_first_truthy d categoryAliases i k (jstr s) (jstr "")
      hk hv (by simpa [jtruthy] using hs) hearlier
    simp [pyNormalizeKeys, hchain]

set_option maxRecDepth 4000 in
/-- Witness for C3: with the highest-priority alias absent, the second
alias supplies the company (stripped) and the category (normalized at
the default threshold). -/
theorem c3_alias_first_truthy_witness :
    (pyNormalizeKeys (jobj [("company", jstr " Acme "), ("brand", jstr "Zeta")])).company_name
      = "Acme" ∧
    (pyNormalizeKeys (jobj [("category", jstr "crm"), ("app_type", jstr "x")])).product_category
      = "crm" :=
  ⟨(c3_alias_first_truthy.1 [("company", jstr " Acme "), ("brand", jstr "Zeta")]
      1 "company" " Acme " rfl rfl (by decide) (by decide)).trans (by decide),
   (c3_alias_first_truthy.2 [("category", jstr "crm"), ("app_type", jstr "x")]
      1 "category" "crm" rfl rfl (by decide) (by decide)).trans (by decide)⟩

/-- Claim C3 (counterexample): the claim says the first alias PRESENT
in the mapping wins, but when `company_name` is present with the empty
string, the `or` chain skips it and uses the later `company` alias. -/
theorem c3_counterexample :
    dget [("company_name", jstr ""), ("company", jstr "Acme")] "company_name" =
      some (jstr "") ∧
    (pyNormalizeKeys
      (jobj [("company_name", jstr ""), ("company", jstr "Acme")])).company_name
      = "Acme" ∧
    ("Acme" : String) ≠ pyStrip "" :=
  ⟨rfl, rfl, by decide⟩

-- Claim C2 ------------------------------------------------------------

/-- The brace positions scanned by `_extract_first_json_object` are
strictly increasing. -/
theorem bracePositions_pairwise (cs : List Char) :
    (bracePositions cs).Pairwise (· < ·) :=
  (List.pairwise_lt_range cs.length).filter _

/-- `tryCandidates` returns the parse of the first position in the
list whose balanced candidate parses, provided every earlier position
either has no balanced candidate or fails to parse. -/
theorem tryCandidates_first_success (parse : String → Option JVal)
    (cs : List Char) :
    ∀ (L : List Nat) (p : Nat) (s : String) (v : JVal),
      L.Pairwise (· < ·) → p ∈ L →
      candidateAt cs p = some s → parse s = some v →
      (∀ q ∈ L, q < p → ∀ s', candidateAt cs q = some s' → parse s' = none) →
      tryCandidates parse cs L = some v := by
  intro L
  induction L with
  | nil => intro p s v _ hp; simp at hp
  | cons q0 rest ih =>
    intro p s v hpw hp hcand hparse hearlier
    rcases List.mem_cons.mp hp with rfl | hp'
    · simp [tryCandidates, hcand, hparse]
    · have hq0p : q0 < p := (List.pairwise_cons.mp hpw).1 p hp'
      have htail : ∀ q ∈ rest, q < p →
          ∀ s', candidateAt cs q = some s' → parse s' = none :=
        fun q hq hqp => hearlier q (List.mem_cons_of_mem _ hq) hqp
      cases hc : candidateAt cs q0 with
      | none =>
        simp only [tryCandidates, hc]
        exact ih p s v (List.pairwise_cons.mp hpw).2 hp' hcand hparse htail
      | some s' =>
        simp only [tryCandidates, hc,
          hearlier q0 (List.mem_cons_self _ _) hq0p s' hc]
        exact ih p s v (List.pairwise_cons.mp hpw).2 hp' hcand hparse htail

/-- Claim C2 (amended): `_extract_first_json_object` never aborts on a
parse failure — it continues from the next opening brace and returns
the parsed content of the FIRST scanned balanced candidate that parses
as valid JSON.  When no candidate before position `p` parses (in
particular none nested inside an invalid first block), the candidate
at `p` — e.g. the second top-level block — is returned. -/
theorem c2_scan_returns_first_parse (text : String) (p : Nat) (s : String)
    (v : JVal) (htext : text ≠ "")
    (hmem : p ∈ bracePositions text.data)
    (hcand : candidateAt text.data p = some s)
    (hparse : jsonParse s = some v)
    (hearlier : ∀ q ∈ bracePositions text.data, q < p →
      candFails text.data q = true) :
    extract_first_json_object text = some v := by
  unfold extract_first_json_object
  rw [if_neg htext]
  apply tryCandidates_first_success jsonParse text.data
    (bracePositions text.data) p s v (bracePositions_pairwise text.data)
    hmem hcand hparse
  intro q hq hqp s' hc
  have hf := hearlier q hq hqp
  unfold candFails at hf
  rw [hc] at hf
  simpa using hf

set_option maxRecDepth 8000 in
/-- Witness for C2: the first top-level block is invalid JSON (its
extra brace sits inside a quoted string, so the depth scan closes it
correctly), and the extraction returns the second block's content. -/
theorem c2_scan_returns_first_parse_witness :
    jsonParse "\x7b\"a\": \"\x7b\", bad\x7d" = none ∧
    extract_first_json_object c2goodText = some (jobj [("ok", jnum 1)]) :=
  ⟨rfl,
   c2_scan_returns_first_parse c2goodText 16 "\x7b\"ok\": 1\x7d"
     (jobj [("ok", jnum 1)]) (by decide) (by decide) rfl rfl (by decide)⟩

/-- Claim C2 (counterexample): with two top-level blocks — the first
invalid, the second valid — the scan can return the content of an
object NESTED inside the first block rather than the second top-level
block's content, because after a parse failure it resumes from the
next brace, which may sit inside the failed block. -/
theorem c2_counterexample :
    topLevelBlocks c2nestedText =
      ["\x7b\"a\": \x7b\"b\": 1\x7d x\x7d", "\x7b\"c\": 2\x7d"] ∧
    jsonParse "\x7b\"a\": \x7b\"b\": 1\x7d x\x7d" = none ∧
    jsonParse "\x7b\"c\": 2\x7d" = some (jobj [("c", jnum 2)]) ∧
    extract_first_json_object c2nestedText = some (jobj [("b", jnum 1)]) ∧
    (some (jobj [("b", jnum 1)]) : Option JVal) ≠ some (jobj [("c", jnum 2)]) :=
  ⟨rfl, rfl, rfl, rfl, by simp⟩
